import Mathlib

/-!
Verification of the sigmaepsilon FEM assembly and RVE-homogenization pipeline.

Shallow embedding of the relevant parts of the source tree:
- `src/sigmaepsilon/material/homg/rvs.py` (`RepresentativeSurfaceElement.homogenize`)
- `src/sigmaepsilon/solid/fem/mesh.py` (`FemMesh` assembly routines)
- `src/sigmaepsilon/utils/fem/mindlinplate.py`, `mindlinshell.py` (material strain kernels)

Scalars are embedded as rationals; numpy arrays as total functions from indices.
-/

set_option maxHeartbeats 1000000

namespace SigmaEpsilon

/-- Python exception kinds relevant to the embedded code paths.
`ConfigurationError` stands for the eagerly raised, clearly worded configuration
error that the specification describes; the source never constructs it. -/
inductive PyError where
  | UnboundLocalError
  | NotImplementedError
  | ConfigurationError
deriving DecidableEq, Repr

/-! ## Mindlin material-strain kernels (`utils/fem/mindlinplate.py`, `mindlinshell.py`) -/

/-- A batched strain array `a[iE, iP, j]` (element, evaluation point, component),
embedded as a total function. -/
def StrainArray : Type := ℕ → ℕ → ℕ → ℚ

/-- `material_strains_mindlin_plate` (mindlinplate.py, lines 38-47): into a zero
array of `_NHOOKE_ = 5` components per point it writes
`res[:, :, :3] = model_strains[:, :, :3] * z` and
`res[i, :, 3:] = (5 / 4) * (1 - 4 * (z / t[i]) ** 2) * model_strains[i, :, 3:]`. -/
def material_strains_mindlin_plate (model_strains : StrainArray) (z : ℚ)
    (t : ℕ → ℚ) : StrainArray :=
  fun iE iP j =>
    if j < 3 then model_strains iE iP j * z
    else if j < 5 then 5 / 4 * (1 - 4 * (z / t iE) ^ 2) * model_strains iE iP j
    else 0

/-- `material_strains_mindlin_shell` (mindlinshell.py, lines 42-51): textually the
same computation as the plate kernel, kept as its own definition as in the source. -/
def material_strains_mindlin_shell (model_strains : StrainArray) (z : ℚ)
    (t : ℕ → ℚ) : StrainArray :=
  fun iE iP j =>
    if j < 3 then model_strains iE iP j * z
    else if j < 5 then 5 / 4 * (1 - 4 * (z / t iE) ^ 2) * model_strains iE iP j
    else 0

/-! ## Penalty matrix (`solid/fem/mesh.py`, `FemMesh.penalty_matrix_coo`) -/

/-- Modelled from the spec: `fem_penalty_matrix_coo` lives in `solid/fem/preproc.py`,
which is not under `src/`.  Per the spec's penalty Dirichlet enforcement, for every
DOF flagged fixed it adds a large penalty value to that DOF's diagonal entry of a
global matrix indexed by flattened (node, local DOF) pairs. -/
def fem_penalty_matrix_coo (penalty : ℚ) (NDOFN : ℕ) (values : ℕ → ℕ → Bool) :
    ℕ → ℕ → ℚ :=
  fun i j => if i = j ∧ values (i / NDOFN) (i % NDOFN) = true then penalty else 0

/-- `FemMesh.penalty_matrix_coo` (mesh.py, lines 247-275).  The method accepts a
`fixity` argument, but its first statement (line 272) rebinds
`fixity = self.root().pointdata.fixity`, so the matrix is always built from the
fixity array stored in the root pointdata. -/
def penalty_matrix_coo (penalty : ℚ) (NDOFN : ℕ) (stored_fixity : ℕ → ℕ → Bool)
    (fixity_arg : Option (ℕ → ℕ → Bool)) : ℕ → ℕ → ℚ :=
  fem_penalty_matrix_coo penalty NDOFN stored_fixity

/-! ## Nodal supports installed by `homogenize` (rvs.py, lines 65-76) -/

/-- One in-place update `fixity[p, d] = True` on a boolean nodal-fixity array. -/
def setFixity (f : ℕ → ℕ → Bool) (p d : ℕ) : ℕ → ℕ → Bool :=
  fun q e => if q = p ∧ e = d then true else f q e

/-- The nodal fixity array installed by `homogenize` (rvs.py, lines 66-73), given
the point indices returned by the three `index_of_closest` queries:
`iC` for the cell center, `iX` for `[xmax, 0, 0]`, `iY` for `[0, ymax, 0]`.
The source performs `nodal_fixity[iC, :3] = True`, `nodal_fixity[iX, [1, 2]] = True`,
`nodal_fixity[iY, 2] = True` on an all-`False` array. -/
def homogenize_fixity (iC iX iY : ℕ) : ℕ → ℕ → Bool :=
  setFixity (setFixity (setFixity (setFixity (setFixity (setFixity
    (fun _ _ => false) iC 0) iC 1) iC 2) iX 1) iX 2) iY 2

/-- The axes passed to `periodic_essential_ebc` by `homogenize` (rvs.py, line 76). -/
def homogenize_periodicity_axes : List ℕ := [0, 1]

/-- The number of DOFs of point `p` that a fixity array flags fixed, among the model's
`NDOFN` DOFs per node. -/
def fixedDOFCount (f : ℕ → ℕ → Bool) (p NDOFN : ℕ) : ℕ :=
  (List.range NDOFN).countP (fun d => f p d)

/-- The support pattern asserted by the claim for a model with `NDOFN` DOFs per node:
the point nearest the centroid is fixed fully, exactly one extra DOF is fixed at each
of the two boundary points, and periodicity is installed along axes 0 and 1. -/
abbrev claimedSupportPattern (NDOFN iC iX iY : ℕ) : Prop :=
  (∀ d < NDOFN, homogenize_fixity iC iX iY iC d = true) ∧
  fixedDOFCount (homogenize_fixity iC iX iY) iX NDOFN = 1 ∧
  fixedDOFCount (homogenize_fixity iC iX iY) iY NDOFN = 1 ∧
  homogenize_periodicity_axes = [0, 1]

/-! ## Model-name dispatch in `homogenize` (rvs.py, lines 50-62) -/

/-- ASCII lower-casing of one character code, as Python's `str.lower` acts on the
ASCII model names involved here. -/
def lowerCode (n : ℕ) : ℕ := if 65 ≤ n ∧ n ≤ 90 then n + 32 else n

/-- The character codes of `model.lower()` for a model-name string. -/
def modelKey (model : String) : List ℕ :=
  model.data.map (fun c => lowerCode c.toNat)

/-- The `NSTRE` dispatch (rvs.py, lines 50-53): `if model.lower() == 'mr': NSTRE = 8`,
`elif model.lower() == 'kl': NSTRE = 6` — and no `else` branch, so for any other
name the local variable `NSTRE` is left unbound (`none`).  The comparisons with
`'mr'` and `'kl'` are embedded through the character codes `[109, 114]` and
`[107, 108]`. -/
def homogenize_NSTRE (model : String) : Option ℕ :=
  if modelKey model = [109, 114] then some 8
  else if modelKey model = [107, 108] then some 6
  else none

/-- The outcome of the setup phase of `homogenize` (rvs.py, lines 50-62):
whether the point-set bounds, center and bounding-box area were computed
(lines 56-59), which error if any was raised, and the value of `NSTRE`. -/
structure HomogenizeSetup where
  boundsComputed : Bool
  error : Option PyError
  nstre : Option ℕ
deriving DecidableEq, Repr

/-- The setup phase of `homogenize`.  Lines 56-59 compute the bounds, center and
area of the point set unconditionally; the first use of `NSTRE` is the allocation
of the nodal load array on line 62, where Python raises `UnboundLocalError` if the
dispatch on lines 50-53 bound neither branch. -/
def homogenize_setup (model : String) : HomogenizeSetup :=
  match homogenize_NSTRE model with
  | some n => { boundsComputed := true, error := none, nstre := some n }
  | none => { boundsComputed := true, error := some PyError.UnboundLocalError,
              nstre := none }

/-- The failure behaviour asserted by the claim at a given model name: correct
dispatch for the two supported names, and for an unsupported name a clearly worded
configuration error raised before any numerical work. -/
abbrev claimedDispatchBehaviour (model : String) : Prop :=
  homogenize_NSTRE ("MR") = some 8 ∧ homogenize_NSTRE ("KL") = some 6 ∧
  (homogenize_NSTRE model = none →
    (homogenize_setup model).error = some PyError.ConfigurationError ∧
    (homogenize_setup model).boundsComputed = false)

/-! ## COO sparse assembly (`solid/fem/mesh.py`, `elastic_stiffness_matrix_coo`) -/

/-- A sparse matrix in COO format: a list of `(row, column, value)` triplets. -/
abbrev Triplet : Type := ℕ × ℕ × ℚ

/-- The matrix value represented by a COO triplet list at entry `(i, j)`: the sum of
all stored values with that key — duplicate entries are summed, never overwritten. -/
def cooValue (ts : List Triplet) (i j : ℕ) : ℚ :=
  ((ts.filter (fun t => decide (t.1 = i ∧ t.2.1 = j))).map (fun t => t.2.2)).sum

/-- scipy's `eliminate_zeros`: drop the stored entries whose value is exactly zero. -/
def eliminate_zeros (ts : List Triplet) : List Triplet :=
  ts.filter (fun t => decide (t.2.2 ≠ 0))

/-- The stored keys of a COO list, in storage order. -/
def cooKeys (ts : List Triplet) : List (ℕ × ℕ) := ts.map (fun t => (t.1, t.2.1))

/-- scipy's `sum_duplicates`: one stored entry per distinct key, holding the sum of
all stored values with that key. -/
def sum_duplicates (ts : List Triplet) : List Triplet :=
  (cooKeys ts).dedup.map (fun k => (k.1, k.2, cooValue ts k.1 k.2))

/-- `FemMesh.elastic_stiffness_matrix_coo` (mesh.py, lines 128-154) with default
arguments: the per-block stiffness matrices are summed additively
(`np.sum(list(map(foo, blocks))).tocoo()`), then `K.eliminate_zeros()` runs, and
`K.sum_duplicates()` runs after it — in that order. -/
def elastic_stiffness_matrix_coo (blocks : List (List Triplet)) : List Triplet :=
  sum_duplicates (eliminate_zeros blocks.flatten)

/-- The claim's zero-dropping property of a stored COO representation: no stored
entry has the exact value zero. -/
def droppedZeros (ts : List Triplet) : Prop := ∀ t ∈ ts, t.2.2 ≠ 0

theorem cooValue_cons (t : Triplet) (ts : List Triplet) (i j : ℕ) :
    cooValue (t :: ts) i j
      = (if t.1 = i ∧ t.2.1 = j then t.2.2 else 0) + cooValue ts i j := by
  by_cases h : t.1 = i ∧ t.2.1 = j <;> simp [cooValue, List.filter_cons, h]

theorem cooValue_append (ts us : List Triplet) (i j : ℕ) :
    cooValue (ts ++ us) i j = cooValue ts i j + cooValue us i j := by
  simp [cooValue, List.filter_append]

theorem cooValue_flatten (blocks : List (List Triplet)) (i j : ℕ) :
    cooValue blocks.flatten i j = (blocks.map (fun b => cooValue b i j)).sum := by
  induction blocks with
  | nil => rfl
  | cons b rest ih =>
    rw [List.flatten_cons, cooValue_append, ih, List.map_cons, List.sum_cons]

theorem cooValue_eliminate_zeros (ts : List Triplet) (i j : ℕ) :
    cooValue (eliminate_zeros ts) i j = cooValue ts i j := by
  induction ts with
  | nil => rfl
  | cons t rest ih =>
    by_cases hz : t.2.2 = 0
    · rw [cooValue_cons]
      have he : eliminate_zeros (t :: rest) = eliminate_zeros rest := by
        simp [eliminate_zeros, List.filter_cons, hz]
      rw [he, ih, hz]
      simp
    · have he : eliminate_zeros (t :: rest) = t :: eliminate_zeros rest := by
        simp [eliminate_zeros, List.filter_cons, hz]
      rw [he, cooValue_cons, cooValue_cons, ih]

theorem cooValue_eq_zero_of_not_mem (ts : List Triplet) (i j : ℕ)
    (h : (i, j) ∉ cooKeys ts) : cooValue ts i j = 0 := by
  induction ts with
  | nil => rfl
  | cons t rest ih =>
    rw [cooValue_cons]
    have hk : ¬ (t.1 = i ∧ t.2.1 = j) := by
      intro hc
      exact h (by simp [cooKeys, hc.1, hc.2])
    have hr : (i, j) ∉ cooKeys rest := fun hc => h (by simp [cooKeys] at hc ⊢; tauto)
    rw [if_neg hk, ih hr, add_zero]

theorem cooValue_keyMap (ts : List Triplet) (i j : ℕ) (ks : List (ℕ × ℕ))
    (h : ks.Nodup) :
    cooValue (ks.map (fun k => (k.1, k.2, cooValue ts k.1 k.2))) i j
      = if (i, j) ∈ ks then cooValue ts i j else 0 := by
  induction ks with
  | nil => rfl
  | cons k rest ih =>
    have hr : rest.Nodup := h.of_cons
    rw [List.map_cons, cooValue_cons, ih hr]
    by_cases hk : k = (i, j)
    · subst hk
      have hnr : (i, j) ∉ rest := (List.nodup_cons.mp h).1
      simp [hnr]
    · have hc : ¬ (k.1 = i ∧ k.2 = j) := by
        intro hc2
        apply hk
        cases k
        simp_all
      have hk2 : ¬ (i, j) = k := fun he => hk he.symm
      simp [hc, hk2, List.mem_cons]

theorem cooValue_sum_duplicates (ts : List Triplet) (i j : ℕ) :
    cooValue (sum_duplicates ts) i j = cooValue ts i j := by
  rw [sum_duplicates, cooValue_keyMap ts i j _ (List.nodup_dedup _)]
  by_cases hm : (i, j) ∈ cooKeys ts
  · rw [if_pos (List.mem_dedup.mpr hm)]
  · rw [if_neg (fun hc => hm (List.mem_dedup.mp hc)),
      cooValue_eq_zero_of_not_mem ts i j hm]

theorem cooKeys_sum_duplicates (ts : List Triplet) :
    cooKeys (sum_duplicates ts) = (cooKeys ts).dedup := by
  unfold cooKeys sum_duplicates
  rw [List.map_map]
  have hcomp : ((fun t : Triplet => (t.1, t.2.1)) ∘
      fun k : ℕ × ℕ => (k.1, k.2, cooValue ts k.1 k.2)) = fun k => k := by
    funext k
    rfl
  rw [hcomp]
  simp [cooKeys]

/-! ## Load assembly (`solid/fem/mesh.py`, `FemMesh.load_vector`) -/

/-- A global load vector (flattened over DOFs and load cases), as a total function. -/
abbrev LoadVec : Type := ℕ → ℚ

/-- Modelled from the spec: the per-block celldata kernels `body_load_vector` and
`strain_load_vector` live in `solid/fem/cells`, which is not under `src/`.  Per the
spec ("any block lacking body/strain load data contributes nothing — absence is not
an error") and the `None` filter in `FemMesh.load_vector`, each kernel returns
`none` when the block carries no such data, the block's assembled load vector when
it does, and may raise an error. -/
structure LoadBlock where
  body : Except PyError (Option LoadVec)
  strain : Except PyError (Option LoadVec)

/-- Evaluate one load category over the blocks the way `FemMesh.load_vector` does:
map the kernel over all blocks and drop the `None` results; the first raised error
aborts the whole category. -/
def collectLoads : List (Except PyError (Option LoadVec)) →
    Except PyError (List LoadVec)
  | [] => Except.ok []
  | c :: rest =>
    match c with
    | Except.error e => Except.error e
    | Except.ok v =>
      match collectLoads rest with
      | Except.error e => Except.error e
      | Except.ok vs =>
        match v with
        | none => Except.ok vs
        | some w => Except.ok (w :: vs)

/-- Pointwise sum of a list of load vectors. -/
def sumVecs (vs : List LoadVec) : LoadVec := fun i => (vs.map (fun v => v i)).sum

/-- One `try: res += np.sum(list(m), axis=0) except Exception: pass` category step
of `FemMesh.load_vector` (mesh.py, lines 293-299 and 300-306): on any error the
category is skipped and `res` is left unchanged. -/
def tryAddCategory (res : LoadVec) (contribs : List (Except PyError (Option LoadVec))) :
    LoadVec :=
  match collectLoads contribs with
  | Except.ok vs => fun i => res i + sumVecs vs i
  | Except.error _ => res

/-- `FemMesh.load_vector` (mesh.py, lines 277-307): start from the concentrated
nodal loads of the root pointdata, then add the body-load category, then the
strain-load category, each guarded by its own `try/except Exception: pass`. -/
def load_vector (nodal : LoadVec) (blocks : List LoadBlock) : LoadVec :=
  tryAddCategory (tryAddCategory nodal (blocks.map LoadBlock.body))
    (blocks.map LoadBlock.strain)

/-- The behaviour the claim describes for `load_vector`: a block-level error is not
recovered locally but propagates to the caller, aborting the computation. -/
def load_vector_propagating (nodal : LoadVec) (blocks : List LoadBlock) :
    Except PyError LoadVec :=
  match collectLoads (blocks.map LoadBlock.body) with
  | Except.error e => Except.error e
  | Except.ok bs =>
    match collectLoads (blocks.map LoadBlock.strain) with
    | Except.error e => Except.error e
    | Except.ok ss => Except.ok (fun i => nodal i + sumVecs bs i + sumVecs ss i)

/-- A block whose body-load kernel raises and whose strain-load kernel reports no
data. -/
def failingBlock : LoadBlock :=
  { body := Except.error PyError.NotImplementedError, strain := Except.ok none }

/-- A block carrying a constant body load of `5` and no strain load. -/
def healthyBlock : LoadBlock :=
  { body := Except.ok (some (fun _ => 5)), strain := Except.ok none }

/-! ## Homogenization post-processing (rvs.py, lines 101-134) -/

/-- One cell block of the representative surface element, reduced to the data the
post-processing loop of `homogenize` consumes. -/
structure HomgBlock where
  /-- the block's total geometric measure (area for 2-D, volume for 3-D blocks) -/
  measure : ℚ
  /-- the block's own local constitutive ("Hooke") matrix -/
  C : ℕ → ℕ → ℚ
  /-- the block's integrated stress-response contribution, `∫ forces dA` -/
  S : ℕ → ℕ → ℚ

/-- Modelled from the spec: the accumulation kernels `_postproc_shell_gauss_dynams`
and `_postproc_3d_gauss_stresses` (in `material/homg/utils.py`, not under `src/`)
add each block's quadrature-integrated stress response into the `hooke`
accumulator. -/
def hookeAccum (blocks : List HomgBlock) : ℕ → ℕ → ℚ :=
  fun i j => (blocks.map (fun b => b.S i j)).sum

/-- Modelled from the spec: the accumulation kernels `_calc_avg_hooke_shell` and
`_calc_avg_hooke_3d_to_shell` (in `material/homg/utils.py`, not under `src/`) add
each block's own constitutive matrix, weighted by the block's geometric measure,
into the `hooke_avg` accumulator. -/
def hookeAvgAccum (blocks : List HomgBlock) : ℕ → ℕ → ℚ :=
  fun i j => (blocks.map (fun b => b.measure * b.C i j)).sum

/-- The combination step of `homogenize` (rvs.py, lines 129-134): `hooke /= area`,
`hooke_avg /= area`, `result = hooke_avg - hooke`, and for `NSTRE = 8` the override
`result[6:8, 6:8] = hooke[6:8, 6:8] * 5/6`, where `hooke` has already been divided
by `area`. -/
def homogenize_result (NSTRE : ℕ) (blocks : List HomgBlock) (area : ℚ) :
    ℕ → ℕ → ℚ :=
  fun i j =>
    if NSTRE = 8 ∧ 6 ≤ i ∧ i < 8 ∧ 6 ≤ j ∧ j < 8 then
      hookeAccum blocks i j / area * (5 / 6)
    else
      hookeAvgAccum blocks i j / area - hookeAccum blocks i j / area

/-- The effective matrix as the claim words it: the measure-weighted average of the
blocks' local constitutive matrices minus the stress-response matrix divided by the
domain area, with the transverse-shear 2×2 block overridden by `5/6` times the
corresponding block of the *unweighted* stress-response matrix. -/
def claimed_effective_matrix (NSTRE : ℕ) (blocks : List HomgBlock) (area : ℚ) :
    ℕ → ℕ → ℚ :=
  fun i j =>
    if NSTRE = 8 ∧ 6 ≤ i ∧ i < 8 ∧ 6 ≤ j ∧ j < 8 then
      hookeAccum blocks i j * (5 / 6)
    else
      hookeAvgAccum blocks i j / (blocks.map HomgBlock.measure).sum
        - hookeAccum blocks i j / area

/-- A single block tiling a domain of area `2`, with zero constitutive matrix and a
unit stress response. -/
def cexHomgBlock : HomgBlock :=
  { measure := 2, C := fun _ _ => 0, S := fun _ _ => 1 }

/-! ## Homogenize as a state transformer (rvs.py, lines 42-134) -/

/-- The per-block state touched by `homogenize`: the block's spatial dimension
(`block.cd.NDIM`) and its transient per-element strain-load field
(`block.cd.strain_loads`, `None` when absent). -/
structure CellBlockState where
  NDIM : ℕ
  strain_loads : Option StrainArray

/-- A constraint object of the structure's `constraints` list; `homogenize` appends
`NodeToNode` objects produced by `periodic_essential_ebc` for the given axes. -/
inductive FemConstraint where
  | nodeToNode (axes : List ℕ)
deriving DecidableEq, Repr

/-- The structure state `homogenize` mutates: its cell blocks and its constraints
list. -/
structure RVSState where
  blocks : List CellBlockState
  constraints : List FemConstraint

/-- The strain-load installation loop (rvs.py, lines 79-94): each block with
`NDIM = 3` or `NDIM = 2` gets its `strain_loads` field set to the computed field
(`_strain_field_3d_bulk`, possibly transformed to the surface frames — both in
modules not under `src/`, here abstracted as the given `strainField` per block
position); any other dimension raises `NotImplementedError`. -/
def writeStrainLoads (strainField : ℕ → StrainArray) :
    List CellBlockState → ℕ → Except PyError (List CellBlockState)
  | [], _ => Except.ok []
  | b :: rest, k =>
    if b.NDIM = 3 ∨ b.NDIM = 2 then
      match writeStrainLoads strainField rest (k + 1) with
      | Except.ok rest2 =>
        Except.ok ({ b with strain_loads := some (strainField k) } :: rest2)
      | Except.error e => Except.error e
    else Except.error PyError.NotImplementedError

/-- The clearing pass of the post-processing loop (rvs.py, line 105):
`block.cd.strain_loads = None` for every block. -/
def clearStrainLoads (bs : List CellBlockState) : List CellBlockState :=
  bs.map (fun b => { b with strain_loads := none })

/-- `homogenize` as a transformer of the structure state: the `NSTRE` dispatch
(lines 50-53, `UnboundLocalError` at line 62 for unsupported names), the
strain-load installation (lines 79-94), the append of the periodicity constraints
(line 98 — `clear_constraints` on line 97 is commented out, and nothing ever
removes constraints), and the post-processing loop that clears every block's
strain-load field (lines 104-127). -/
def homogenize_state (strainField : ℕ → StrainArray) (model : String)
    (s : RVSState) : Except PyError RVSState :=
  match homogenize_NSTRE model with
  | none => Except.error PyError.UnboundLocalError
  | some _ =>
    match writeStrainLoads strainField s.blocks 0 with
    | Except.error e => Except.error e
    | Except.ok bs =>
      Except.ok { blocks := clearStrainLoads bs,
                  constraints := s.constraints
                    ++ [FemConstraint.nodeToNode homogenize_periodicity_axes] }

/-- `n` successive completed calls to `homogenize` on the same structure. -/
def homogenizeIter (strainField : ℕ → StrainArray) (model : String) :
    ℕ → RVSState → Except PyError RVSState
  | 0, s => Except.ok s
  | n + 1, s =>
    match homogenize_state strainField model s with
    | Except.ok s2 => homogenizeIter strainField model n s2
    | Except.error e => Except.error e

/-- A structure with one 2-D block carrying a stale strain-load field and no
constraints. -/
def rvsDemoStart : RVSState :=
  { blocks := [{ NDIM := 2, strain_loads := some (fun _ _ _ => 1) }],
    constraints := [] }

theorem homogenize_state_constraints (strainField : ℕ → StrainArray)
    (model : String) (s s2 : RVSState)
    (h : homogenize_state strainField model s = Except.ok s2) :
    s2.constraints
      = s.constraints ++ [FemConstraint.nodeToNode homogenize_periodicity_axes] := by
  rw [homogenize_state] at h
  cases hd : homogenize_NSTRE model with
  | none => rw [hd] at h; exact absurd h (by simp)
  | some n =>
    rw [hd] at h
    cases hw : writeStrainLoads strainField s.blocks 0 with
    | error e => rw [hw] at h; exact absurd h (by simp)
    | ok bs =>
      rw [hw] at h
      have h2 := Except.ok.inj h
      rw [← h2]

theorem homogenizeIter_constraints (strainField : ℕ → StrainArray)
    (model : String) (n : ℕ) :
    ∀ s s2 : RVSState, homogenizeIter strainField model n s = Except.ok s2 →
      s2.constraints.length = s.constraints.length + n ∧
      ∀ c ∈ s2.constraints,
        c ∈ s.constraints ∨ c = FemConstraint.nodeToNode homogenize_periodicity_axes := by
  induction n with
  | zero =>
    intro s s2 h
    have h2 := Except.ok.inj h
    subst h2
    exact ⟨rfl, fun c hc => Or.inl hc⟩
  | succ n ih =>
    intro s s2 h
    rw [homogenizeIter] at h
    cases h1 : homogenize_state strainField model s with
    | error e => rw [h1] at h; exact absurd h (by simp)
    | ok s1 =>
      rw [h1] at h
      have hc1 := homogenize_state_constraints strainField model s s1 h1
      obtain ⟨hlen, hmem⟩ := ih s1 s2 h
      constructor
      · rw [hlen, hc1, List.length_append]
        simp
        omega
      · intro c hc
        rcases hmem c hc with h2 | h2
        · rw [hc1] at h2
          rcases List.mem_append.mp h2 with h3 | h3
          · exact Or.inl h3
          · right
            simpa using h3
        · exact Or.inr h2

/-! ## Theorems -/

/-- C4 counterexample: for a mesh with one leaf block whose element stiffness COO
list holds the two cancelling duplicates `(0, 0, 1)` and `(0, 0, -1)`,
`elastic_stiffness_matrix_coo` returns the stored representation `[(0, 0, 0)]`:
because `eliminate_zeros` runs before `sum_duplicates`, the exactly-zero entry
produced by merging the duplicates is not dropped. -/
theorem elastic_stiffness_coo_counterexample :
    elastic_stiffness_matrix_coo [[(0, 0, (1 : ℚ)), (0, 0, -1)]] = [(0, 0, 0)] ∧
    ¬ droppedZeros (elastic_stiffness_matrix_coo [[(0, 0, (1 : ℚ)), (0, 0, -1)]]) := by
  have h : elastic_stiffness_matrix_coo [[(0, 0, (1 : ℚ)), (0, 0, -1)]]
      = [(0, 0, 0)] := by
    norm_num [elastic_stiffness_matrix_coo, sum_duplicates, eliminate_zeros,
      cooValue, cooKeys]
  refine ⟨h, fun hd => ?_⟩
  have h0 := hd (0, 0, 0) (by rw [h]; exact List.mem_singleton_self _)
  exact h0 rfl

/-- C4 amended: `FemMesh.elastic_stiffness_matrix_coo` with default arguments
returns a sparse matrix equal to the additive sum of all leaf blocks' element
stiffness contributions, in which duplicate `(row, col)` entries have been summed
(never overwritten) and duplicate keys merged; entries that are exactly zero are
dropped *before* the duplicates are merged, so an explicit zero entry may remain
where duplicates cancel. -/
theorem elastic_stiffness_matrix_coo_spec (blocks : List (List Triplet)) (i j : ℕ) :
    cooValue (elastic_stiffness_matrix_coo blocks) i j
      = (blocks.map (fun b => cooValue b i j)).sum ∧
    (cooKeys (elastic_stiffness_matrix_coo blocks)).Nodup ∧
    elastic_stiffness_matrix_coo blocks
      = sum_duplicates (eliminate_zeros blocks.flatten) := by
  refine ⟨?_, ?_, rfl⟩
  · rw [elastic_stiffness_matrix_coo, cooValue_sum_duplicates,
      cooValue_eliminate_zeros, cooValue_flatten]
  · rw [elastic_stiffness_matrix_coo, cooKeys_sum_duplicates]
    exact List.nodup_dedup _

/-- C7: for every element batch with thickness array `t` and through-thickness
coordinate `z`, `material_strains_mindlin_plate` and `material_strains_mindlin_shell`
return material strains whose first three (in-plane) components equal the model
strains multiplied by `z` and whose transverse-shear components (3 and 4) equal the
model strains multiplied by `(5/4) * (1 - 4 * (z / t)^2)`; in particular at `z = 0`
the in-plane part is zero and the transverse-shear part is scaled by exactly `5/4`. -/
theorem material_strains_mindlin_spec (ms : StrainArray) (z : ℚ) (t : ℕ → ℚ)
    (iE iP j : ℕ) :
    (j < 3 →
      material_strains_mindlin_plate ms z t iE iP j = ms iE iP j * z ∧
      material_strains_mindlin_shell ms z t iE iP j = ms iE iP j * z ∧
      material_strains_mindlin_plate ms 0 t iE iP j = 0 ∧
      material_strains_mindlin_shell ms 0 t iE iP j = 0) ∧
    (3 ≤ j → j < 5 →
      material_strains_mindlin_plate ms z t iE iP j
        = 5 / 4 * (1 - 4 * (z / t iE) ^ 2) * ms iE iP j ∧
      material_strains_mindlin_shell ms z t iE iP j
        = 5 / 4 * (1 - 4 * (z / t iE) ^ 2) * ms iE iP j ∧
      material_strains_mindlin_plate ms 0 t iE iP j = 5 / 4 * ms iE iP j ∧
      material_strains_mindlin_shell ms 0 t iE iP j = 5 / 4 * ms iE iP j) := by
  refine ⟨fun hj => ?_, fun hj3 hj5 => ?_⟩
  · simp [material_strains_mindlin_plate, material_strains_mindlin_shell, hj]
  · have hj : ¬ j < 3 := by omega
    refine ⟨?_, ?_, ?_, ?_⟩
    · simp [material_strains_mindlin_plate, hj, hj5]
    · simp [material_strains_mindlin_shell, hj, hj5]
    · simp [material_strains_mindlin_plate, hj, hj5]
    · simp [material_strains_mindlin_shell, hj, hj5]

/-- Witness for C7: a concrete evaluation, plate kernel, transverse-shear component 4
at the mid-surface `z = 0` with unit model strains and unit thickness. -/
theorem material_strains_mindlin_spec_witness :
    material_strains_mindlin_plate (fun _ _ _ => 1) 0 (fun _ => 1) 0 0 4 = 5 / 4 := by
  have h := (material_strains_mindlin_spec (fun _ _ _ => 1) 0 (fun _ => 1) 0 0 4).2
    (by norm_num) (by norm_num)
  simpa using h.2.2.1

/-- C9: `FemMesh.penalty_matrix_coo` ignores its `fixity` parameter — the returned
penalty matrix is built from the fixity array stored in the root pointdata, and two
calls with different explicit `fixity` arguments yield identical results. -/
theorem penalty_matrix_coo_ignores_fixity_arg (penalty : ℚ) (NDOFN : ℕ)
    (stored : ℕ → ℕ → Bool) (f g : Option (ℕ → ℕ → Bool)) :
    penalty_matrix_coo penalty NDOFN stored f
      = fem_penalty_matrix_coo penalty NDOFN stored ∧
    penalty_matrix_coo penalty NDOFN stored f
      = penalty_matrix_coo penalty NDOFN stored g :=
  ⟨rfl, rfl⟩

/-- C2 counterexample: for the 6-DOF-per-node model (`FemMesh.NDOFN = 6`) with the
three query points resolving to distinct nodes 0, 1, 2, the installed supports do not
match the claim: the centroid node is not fully fixed (DOF 3 is free) and the node
nearest `[xmax, 0, 0]` has two fixed DOFs, not one. -/
theorem homogenize_fixity_claim_counterexample :
    ¬ claimedSupportPattern 6 0 1 2 := by
  decide

/-- C2 amended: the supports installed by `homogenize` are exactly: DOFs 0, 1, 2
(the translations) at the point nearest the centroid, DOFs 1 and 2 at the point
nearest `[xmax, 0, 0]`, DOF 2 at the point nearest `[0, ymax, 0]`; periodicity
constraints are requested along the in-plane axes 0 and 1. -/
theorem homogenize_fixity_characterization (iC iX iY p d : ℕ) :
    (homogenize_fixity iC iX iY p d = true ↔
      (p = iC ∧ d < 3) ∨ (p = iX ∧ (d = 1 ∨ d = 2)) ∨ (p = iY ∧ d = 2)) ∧
    homogenize_periodicity_axes = [0, 1] := by
  refine ⟨?_, rfl⟩
  simp only [homogenize_fixity, setFixity]
  split_ifs <;> simp_all <;> omega

/-- C3 counterexample: at the unsupported model name `"foo"`, `homogenize` does not
fail with a configuration error before numerical work — the bounds, center and area
are computed first, and the failure is an `UnboundLocalError` at the first use of
`NSTRE`. -/
theorem homogenize_dispatch_claim_counterexample :
    ¬ claimedDispatchBehaviour ("foo") := by
  decide

/-- C3 amended: `homogenize` uses `NSTRE = 8` for the Mindlin-Reissner model and
`NSTRE = 6` for the Kirchhoff-Love model (matching `model.lower()`); for every other
model name the call fails fatally — never producing `NSTRE` nor a result — but the
failure is an `UnboundLocalError` raised at the first use of `NSTRE`, after the
point-set bounds, center and bounding-box area have already been computed, not an
eagerly reported configuration error. -/
theorem homogenize_dispatch_spec (model : String)
    (h : modelKey model ≠ [109, 114] ∧ modelKey model ≠ [107, 108]) :
    homogenize_NSTRE ("MR") = some 8 ∧ homogenize_NSTRE ("KL") = some 6 ∧
    homogenize_NSTRE ("mr") = some 8 ∧ homogenize_NSTRE ("kl") = some 6 ∧
    homogenize_NSTRE model = none ∧
    homogenize_setup model
      = { boundsComputed := true, error := some PyError.UnboundLocalError,
          nstre := none } := by
  have hn : homogenize_NSTRE model = none := by
    simp [homogenize_NSTRE, h.1, h.2]
  refine ⟨by decide, by decide, by decide, by decide, hn, ?_⟩
  simp [homogenize_setup, hn]

/-- Witness for C3: the amended statement applied at the concrete model name
`"foo"`. -/
theorem homogenize_dispatch_spec_witness :
    homogenize_setup ("foo")
      = { boundsComputed := true, error := some PyError.UnboundLocalError,
          nstre := none } :=
  (homogenize_dispatch_spec ("foo") (by decide)).2.2.2.2.2

/-- C5 counterexample: with a healthy block (constant body load `5`) and a block
whose body-load kernel raises, `FemMesh.load_vector` completes and returns the
concentrated nodal loads only — the error does not propagate, and even the healthy
block's contribution is dropped — whereas the claimed propagating behaviour would
abort with the error. -/
theorem load_vector_error_counterexample :
    load_vector (fun _ => 0) [healthyBlock, failingBlock] 0 = 0 ∧
    load_vector_propagating (fun _ => 0) [healthyBlock, failingBlock]
      = Except.error PyError.NotImplementedError := by
  constructor
  · simp [load_vector, tryAddCategory, collectLoads, sumVecs, healthyBlock,
      failingBlock]
  · rfl

/-- C5 amended: an error raised while computing a block's body-load contribution in
`FemMesh.load_vector` is caught by the local `except Exception: pass` and
suppressed: the call completes, and the entire body-load category — the
contributions of all blocks, failing or not — is treated as zero; likewise for the
strain-load category, and with both categories failing the result is exactly the
concentrated nodal loads. -/
theorem load_vector_swallows_errors (nodal : LoadVec) (blocks : List LoadBlock)
    (e : PyError) (h : collectLoads (blocks.map LoadBlock.body) = Except.error e) :
    load_vector nodal blocks
      = tryAddCategory nodal (blocks.map LoadBlock.strain) ∧
    ∀ e2, collectLoads (blocks.map LoadBlock.strain) = Except.error e2 →
      load_vector nodal blocks = nodal := by
  have hb : tryAddCategory nodal (blocks.map LoadBlock.body) = nodal := by
    simp only [tryAddCategory, h]
  constructor
  · rw [load_vector, hb]
  · intro e2 h2
    rw [load_vector, hb]
    simp only [tryAddCategory, h2]

/-- Witness for C5: the amended statement applied to a single failing block and a
constant nodal load. -/
theorem load_vector_swallows_errors_witness :
    load_vector (fun _ => 7) [failingBlock] = fun _ => 7 := by
  have h := load_vector_swallows_errors (fun _ => 7) [failingBlock]
    PyError.NotImplementedError rfl
  rw [h.1]
  funext i
  simp [tryAddCategory, collectLoads, sumVecs, failingBlock]

/-- C6: when no kernel raises, `FemMesh.load_vector` returns the sum of the
concentrated nodal loads, the per-block body-load vectors and the per-block
strain-load vectors (pointwise over all flattened DOF/load-case indices, so all
load cases are kept), and a block lacking both body- and strain-load data (both
kernels report `None`) contributes exactly zero and causes no error. -/
theorem load_vector_sums_all_contributions (nodal : LoadVec) (blocks : List LoadBlock)
    (bs ss : List LoadVec)
    (hb : collectLoads (blocks.map LoadBlock.body) = Except.ok bs)
    (hs : collectLoads (blocks.map LoadBlock.strain) = Except.ok ss) :
    (∀ i, load_vector nodal blocks i = nodal i + sumVecs bs i + sumVecs ss i) ∧
    ∀ b : LoadBlock, b.body = Except.ok none → b.strain = Except.ok none →
      ∀ i, load_vector nodal (b :: blocks) i = load_vector nodal blocks i := by
  have key : ∀ (n : LoadVec) (blocks2 : List LoadBlock),
      collectLoads (blocks2.map LoadBlock.body) = Except.ok bs →
      collectLoads (blocks2.map LoadBlock.strain) = Except.ok ss →
      ∀ i, load_vector n blocks2 i = n i + sumVecs bs i + sumVecs ss i := by
    intro n blocks2 hb2 hs2 i
    rw [load_vector]
    simp only [tryAddCategory, hb2, hs2]
  constructor
  · exact key nodal blocks hb hs
  · intro b h1 h2 i
    have hb2 : collectLoads ((b :: blocks).map LoadBlock.body) = Except.ok bs := by
      simp only [List.map_cons, collectLoads, h1, hb]
    have hs2 : collectLoads ((b :: blocks).map LoadBlock.strain) = Except.ok ss := by
      simp only [List.map_cons, collectLoads, h2, hs]
    rw [key nodal (b :: blocks) hb2 hs2 i, key nodal blocks hb hs i]

/-- Witness for C6: one block with a constant body load `5` and no strain load,
with constant nodal loads `1`: the assembled load vector is `6` everywhere. -/
theorem load_vector_sums_all_contributions_witness :
    load_vector (fun _ => 1) [healthyBlock] 0 = 6 := by
  have h := (load_vector_sums_all_contributions (fun _ => 1) [healthyBlock]
    [fun _ => 5] [] rfl rfl).1 0
  rw [h]
  norm_num [sumVecs]

/-- C1 counterexample: a single block tiling a domain of area `2`, with zero
constitutive matrix and unit stress response.  At entry `(6, 6)` of the
transverse-shear block the code returns `(5/6) * (1/2) = 5/12`, whereas the claim's
`(5/6)` times the *unweighted* stress-response matrix would give `5/6`: the code
divides the stress-response matrix by the domain area before the override. -/
theorem homogenize_result_counterexample :
    homogenize_result 8 [cexHomgBlock] 2 6 6 = 5 / 12 ∧
    claimed_effective_matrix 8 [cexHomgBlock] 2 6 6 = 5 / 6 ∧
    homogenize_result 8 [cexHomgBlock] 2 6 6
      ≠ claimed_effective_matrix 8 [cexHomgBlock] 2 6 6 := by
  norm_num [homogenize_result, claimed_effective_matrix, hookeAccum, hookeAvgAccum,
    cexHomgBlock]

/-- C1 amended: when the blocks' measures tile the bounding-box area, the effective
matrix returned by `homogenize` equals the measure-weighted average of the blocks'
local constitutive matrices minus the stress-response matrix divided by the domain
area; and for `NSTRE = 8` the transverse-shear 2×2 block (rows/columns 6..7) is
instead `(5/6)` times the corresponding block of the stress-response matrix
*divided by the domain area*, not of the unweighted stress-response matrix. -/
theorem homogenize_result_spec (NSTRE : ℕ) (blocks : List HomgBlock) (area : ℚ)
    (htile : (blocks.map HomgBlock.measure).sum = area) (i j : ℕ) :
    (¬ (NSTRE = 8 ∧ 6 ≤ i ∧ i < 8 ∧ 6 ≤ j ∧ j < 8) →
      homogenize_result NSTRE blocks area i j
        = hookeAvgAccum blocks i j / (blocks.map HomgBlock.measure).sum
          - hookeAccum blocks i j / area) ∧
    (NSTRE = 8 → 6 ≤ i → i < 8 → 6 ≤ j → j < 8 →
      homogenize_result NSTRE blocks area i j
        = 5 / 6 * (hookeAccum blocks i j / area)) := by
  constructor
  · intro hn
    rw [homogenize_result, if_neg hn, htile]
  · intro h8 h6i h8i h6j h8j
    rw [homogenize_result, if_pos ⟨h8, h6i, h8i, h6j, h8j⟩]
    ring

/-- Witness for C1: the amended statement applied to the concrete one-block
configuration, at the in-plane entry `(0, 0)` and at the shear entry `(6, 6)`. -/
theorem homogenize_result_spec_witness :
    homogenize_result 8 [cexHomgBlock] 2 0 0 = -(1 / 2) ∧
    homogenize_result 8 [cexHomgBlock] 2 6 6 = 5 / 12 := by
  have h0 := (homogenize_result_spec 8 [cexHomgBlock] 2
    (by norm_num [cexHomgBlock]) 0 0).1 (by decide)
  have h6 := (homogenize_result_spec 8 [cexHomgBlock] 2
    (by norm_num [cexHomgBlock]) 6 6).2 rfl (by decide) (by decide) (by decide)
    (by decide)
  rw [h0, h6]
  norm_num [hookeAccum, hookeAvgAccum, cexHomgBlock]

/-- C8: after every completed call to `homogenize`, every cell block's strain-load
field has been cleared to `None`: the transient buffer written before the solve
does not persist past the recovery phase. -/
theorem homogenize_clears_strain_loads (strainField : ℕ → StrainArray)
    (model : String) (s s2 : RVSState)
    (h : homogenize_state strainField model s = Except.ok s2) :
    ∀ b ∈ s2.blocks, b.strain_loads = none := by
  rw [homogenize_state] at h
  cases hd : homogenize_NSTRE model with
  | none => rw [hd] at h; exact absurd h (by simp)
  | some n =>
    rw [hd] at h
    cases hw : writeStrainLoads strainField s.blocks 0 with
    | error e => rw [hw] at h; exact absurd h (by simp)
    | ok bs =>
      rw [hw] at h
      have h2 := Except.ok.inj h
      intro b hb
      rw [← h2] at hb
      simp only [clearStrainLoads, List.mem_map] at hb
      obtain ⟨a, _, ha⟩ := hb
      rw [← ha]

/-- Witness for C8: a completed call on a one-block structure whose block starts
with a stale strain-load field; the block of the resulting state has none. -/
theorem homogenize_clears_strain_loads_witness :
    ({ NDIM := 2, strain_loads := none } : CellBlockState).strain_loads = none := by
  refine homogenize_clears_strain_loads (fun _ _ _ _ => 0) ("MR") rvsDemoStart
    { blocks := [{ NDIM := 2, strain_loads := none }],
      constraints := [FemConstraint.nodeToNode [0, 1]] } rfl _ ?_
  simp

/-- C10: every completed call to `homogenize` appends one new periodicity-constraint
object to the structure's `constraints` list (the commented-out `clear_constraints`
never runs, and nothing removes constraints), so `n` successive completed calls
starting from an empty list leave `n` accumulated periodicity-constraint objects:
`homogenize` is not idempotent on the constraint state. -/
theorem homogenize_constraint_accumulation (strainField : ℕ → StrainArray)
    (model : String) (s s1 : RVSState) (n : ℕ) (s2 : RVSState)
    (h1 : homogenize_state strainField model s = Except.ok s1)
    (h2 : homogenizeIter strainField model n s = Except.ok s2)
    (hinit : s.constraints = []) :
    s1.constraints
      = s.constraints ++ [FemConstraint.nodeToNode homogenize_periodicity_axes] ∧
    s2.constraints.length = n ∧
    ∀ c ∈ s2.constraints, c = FemConstraint.nodeToNode homogenize_periodicity_axes := by
  obtain ⟨hlen, hmem⟩ := homogenizeIter_constraints strainField model n s s2 h2
  refine ⟨homogenize_state_constraints strainField model s s1 h1, ?_, ?_⟩
  · rw [hlen, hinit]
    simp
  · intro c hc
    rcases hmem c hc with h3 | h3
    · rw [hinit] at h3
      cases h3
    · exact h3

/-- Witness for C10: two successive completed calls on the demo structure leave a
constraints list of length two, both entries periodicity constraints. -/
theorem homogenize_constraint_accumulation_witness :
    ([FemConstraint.nodeToNode [0, 1],
      FemConstraint.nodeToNode [0, 1]] : List FemConstraint).length = 2 := by
  have h := homogenize_constraint_accumulation (fun _ _ _ _ => 0) ("MR")
    rvsDemoStart
    { blocks := [{ NDIM := 2, strain_loads := none }],
      constraints := [FemConstraint.nodeToNode [0, 1]] }
    2
    { blocks := [{ NDIM := 2, strain_loads := none }],
      constraints := [FemConstraint.nodeToNode [0, 1],
        FemConstraint.nodeToNode [0, 1]] }
    rfl rfl rfl
  exact h.2.1

end SigmaEpsilon
